import Mathlib

/-!
Verification of the Anchor constraint compiler
(`lang/syn/src/codegen/accounts/constraints.rs`) and the
`UncheckedAccount` accounts implementation
(`lang/src/accounts/unchecked_account.rs`).

We shallowly embed (a) the compile-time structure of the code generator:
which constraints the linearizer emits and in what order, and which
conditional checks each constraint's emitter produces; and (b) the runtime
semantics of the generated code: the outcome of each emitted check on a
concrete account state and the trace of system-program calls issued by the
account-creation primitive.

Addresses (public keys) are modelled as naturals, seeds as byte lists,
and the external address-derivation primitive `create_program_address`
as an abstract function supplied by a `Chain` record; the canonical
derivation `find_program_address` is the first bump, counting down from
255, for which `create_program_address` succeeds.
-/

/-- Public keys / addresses, modelled as naturals. -/
abbrev Pubkey := Nat

/-- A single seed: a byte string. -/
abbrev Seed := List Nat

/-- Field identifiers appearing in the accounts struct. -/
abbrev Ident := String

/-- The error codes referenced by the generated checks
(`anchor_lang::__private::ErrorCode` variants used in `constraints.rs`
and `unchecked_account.rs`). -/
inductive ErrorCode where
  | AccountNotEnoughKeys
  | ConstraintMut
  | ConstraintHasOne
  | ConstraintSigner
  | ConstraintRaw
  | ConstraintOwner
  | ConstraintRentExempt
  | ConstraintSeeds
  | ConstraintExecutable
  | ConstraintState
  | ConstraintClose
  | ConstraintAddress
  | ConstraintAssociated
  | ConstraintZero
  | ConstraintNoDup
  | Deprecated
  deriving DecidableEq, Repr

/-- Runtime view of one account (`AccountInfo`): key, owner tag, balance
in lamports, data buffer, and the caller-set flags. -/
structure AccountInfo where
  key : Pubkey
  owner : Pubkey
  lamports : Nat
  data : List Nat
  is_signer : Bool
  is_writable : Bool
  executable : Bool
  deriving DecidableEq, Repr

/-- Payload of the `zeroed` constraint (carries no data relevant here). -/
structure ConstraintZeroed where
  deriving DecidableEq, Repr

/-- Payload of the `mut` constraint: an optional custom error expression
(custom error expressions are modelled as naturals). -/
structure ConstraintMut where
  error : Option Nat
  deriving DecidableEq, Repr

/-- Payload of the `signer` constraint. -/
structure ConstraintSigner where
  error : Option Nat
  deriving DecidableEq, Repr

/-- Payload of one `has_one` constraint. -/
structure ConstraintHasOne where
  join_target : Ident
  error : Option Nat
  deriving DecidableEq, Repr

/-- Payload of one (deprecated) `literal` constraint. -/
structure ConstraintLiteral where
  lit : Nat
  deriving DecidableEq, Repr

/-- Payload of one `raw` constraint. -/
structure ConstraintRaw where
  raw : Nat
  error : Option Nat
  deriving DecidableEq, Repr

/-- Payload of the `owner` constraint. -/
structure ConstraintOwner where
  owner_address : Pubkey
  error : Option Nat
  deriving DecidableEq, Repr

/-- The `rent_exempt` constraint: skip, or enforce rent exemption. -/
inductive ConstraintRentExempt where
  | Skip
  | Enforce
  deriving DecidableEq, Repr

/-- Payload of the `seeds` constraint group: the seed list, whether the
field also carries `init`, and an optional explicit bump (a byte). -/
structure ConstraintSeedsGroup where
  is_init : Bool
  seeds : List Seed
  bump : Option Nat
  deriving DecidableEq, Repr

/-- Payload of the `executable` constraint. -/
structure ConstraintExecutable where
  deriving DecidableEq, Repr

/-- Payload of the (legacy) `state` constraint. -/
structure ConstraintState where
  program_target : Ident
  deriving DecidableEq, Repr

/-- Payload of the `close` constraint. -/
structure ConstraintClose where
  sol_dest : Ident
  deriving DecidableEq, Repr

/-- Payload of the `address` constraint. -/
structure ConstraintAddress where
  address : Pubkey
  error : Option Nat
  deriving DecidableEq, Repr

/-- Payload of the `associated_token` constraint. -/
structure ConstraintAssociatedToken where
  wallet : Ident
  mint : Ident
  deriving DecidableEq, Repr

/-- Payload of the `dup` constraint: the intended alias target. -/
structure ConstraintDup where
  target : Ident
  deriving DecidableEq, Repr

/-- The four initialization kinds (`InitKind`). -/
inductive InitKind where
  | program (owner : Option Pubkey)
  | token (owner mint : Ident)
  | mint (owner : Ident) (decimals : Nat) (freeze_authority : Option Ident)
  | associatedToken (owner mint : Ident)
  deriving DecidableEq, Repr

/-- Payload of the `init` constraint group (`ConstraintInitGroup`). -/
structure ConstraintInitGroup where
  if_needed : Bool
  seeds : Option ConstraintSeedsGroup
  payer : Ident
  space : Option Nat
  kind : InitKind
  deriving DecidableEq, Repr

/-- The linearized, tagged-variant form of one populated constraint slot
(the `Constraint` enum). -/
inductive Constraint where
  | Init (c : ConstraintInitGroup)
  | Zeroed (c : ConstraintZeroed)
  | Mut (c : ConstraintMut)
  | Signer (c : ConstraintSigner)
  | HasOne (c : ConstraintHasOne)
  | Literal (c : ConstraintLiteral)
  | Raw (c : ConstraintRaw)
  | Owner (c : ConstraintOwner)
  | RentExempt (c : ConstraintRentExempt)
  | Seeds (c : ConstraintSeedsGroup)
  | Executable (c : ConstraintExecutable)
  | State (c : ConstraintState)
  | Close (c : ConstraintClose)
  | Address (c : ConstraintAddress)
  | AssociatedToken (c : ConstraintAssociatedToken)
  | Dup (c : ConstraintDup)
  deriving DecidableEq, Repr

/-- The optional-slot record of all constraints attached to one field
(the `ConstraintGroup` struct, fields as destructured in `linearize`). -/
structure ConstraintGroup where
  init : Option ConstraintInitGroup := none
  zeroed : Option ConstraintZeroed := none
  mutable : Option ConstraintMut := none
  dup : Option ConstraintDup := none
  signer : Option ConstraintSigner := none
  has_one : List ConstraintHasOne := []
  literal : List ConstraintLiteral := []
  raw : List ConstraintRaw := []
  owner : Option ConstraintOwner := none
  rent_exempt : Option ConstraintRentExempt := none
  seeds : Option ConstraintSeedsGroup := none
  executable : Option ConstraintExecutable := none
  state : Option ConstraintState := none
  close : Option ConstraintClose := none
  address : Option ConstraintAddress := none
  associated_token : Option ConstraintAssociatedToken := none
  deriving DecidableEq, Repr

/-- `if let Some(c) = slot { constraints.push(f c) }`. -/
def pushIfSome {α : Type} (cs : List Constraint) (slot : Option α)
    (f : α → Constraint) : List Constraint :=
  match slot with
  | some c => cs ++ [f c]
  | none => cs

/-- The linearizer (`linearize` in `constraints.rs`): flattens a
`ConstraintGroup` into a `Vec<Constraint>` by a fixed sequence of pushes. -/
def linearize (g : ConstraintGroup) : List Constraint :=
  let cs : List Constraint := []
  let cs := pushIfSome cs g.zeroed Constraint.Zeroed
  let cs := pushIfSome cs g.init Constraint.Init
  let cs := pushIfSome cs g.seeds Constraint.Seeds
  let cs := pushIfSome cs g.associated_token Constraint.AssociatedToken
  let cs := pushIfSome cs g.mutable Constraint.Mut
  let cs := pushIfSome cs g.signer Constraint.Signer
  let cs := cs ++ g.has_one.map Constraint.HasOne
  let cs := pushIfSome cs g.dup Constraint.Dup
  let cs := cs ++ g.literal.map Constraint.Literal
  let cs := cs ++ g.raw.map Constraint.Raw
  let cs := pushIfSome cs g.owner Constraint.Owner
  let cs := pushIfSome cs g.rent_exempt Constraint.RentExempt
  let cs := pushIfSome cs g.executable Constraint.Executable
  let cs := pushIfSome cs g.state Constraint.State
  let cs := pushIfSome cs g.close Constraint.Close
  let cs := pushIfSome cs g.address Constraint.Address
  cs

theorem pushIfSome_eq {α : Type} (cs : List Constraint) (slot : Option α)
    (f : α → Constraint) :
    pushIfSome cs slot f = cs ++ (slot.map f).toList := by
  cases slot <;> simp [pushIfSome]

/-- C1: for every `ConstraintGroup`, `linearize` emits the populated
constraint slots in exactly the fixed priority order zeroed, init, seeds,
associated_token, mut, signer, has_one (in declared list order), dup,
literal (list order), raw (list order), owner, rent_exempt, executable,
state, close, address — one `Constraint` per populated slot (one per list
element for the list-valued kinds) and nothing else. -/
theorem linearize_fixed_priority_order (g : ConstraintGroup) :
    linearize g =
      (g.zeroed.map Constraint.Zeroed).toList
      ++ (g.init.map Constraint.Init).toList
      ++ (g.seeds.map Constraint.Seeds).toList
      ++ (g.associated_token.map Constraint.AssociatedToken).toList
      ++ (g.mutable.map Constraint.Mut).toList
      ++ (g.signer.map Constraint.Signer).toList
      ++ g.has_one.map Constraint.HasOne
      ++ (g.dup.map Constraint.Dup).toList
      ++ g.literal.map Constraint.Literal
      ++ g.raw.map Constraint.Raw
      ++ (g.owner.map Constraint.Owner).toList
      ++ (g.rent_exempt.map Constraint.RentExempt).toList
      ++ (g.executable.map Constraint.Executable).toList
      ++ (g.state.map Constraint.State).toList
      ++ (g.close.map Constraint.Close).toList
      ++ (g.address.map Constraint.Address).toList := by
  simp only [linearize, pushIfSome_eq, List.append_assoc, List.nil_append]

/-- `u64::from_le_bytes` on a byte list (little endian). -/
def u64_from_le_bytes (bs : List Nat) : Nat :=
  bs.foldr (fun b acc => b + 256 * acc) 0

/-- Runtime semantics of the check emitted by `generate_constraint_zeroed`:
`__disc_bytes.copy_from_slice(&__data[..8])` reads the first 8 bytes of the
account data without a length guard (`none` models the out-of-bounds panic
of the slice index when the buffer is shorter than 8 bytes), interprets
them as a little-endian u64 discriminator, and fails with `ConstraintZero`
when the discriminator is nonzero. -/
def zeroedCheck (data : List Nat) : Option (Except ErrorCode Unit) :=
  if 8 ≤ data.length then
    let discriminator := u64_from_le_bytes (data.take 8)
    some (if discriminator ≠ 0 then Except.error ErrorCode.ConstraintZero
          else Except.ok ())
  else
    none

/-- C9: the zeroed check reads bytes 0..8 of the data buffer with no
length guard: on a buffer of length at least 8 it is total and fails
exactly when those 8 bytes, read as a little-endian u64, are nonzero; on a
shorter buffer the slice indexing is out of bounds (the check does not
return a result at the public interface). -/
theorem zeroedCheck_totality (data : List Nat) :
    (8 ≤ data.length →
      zeroedCheck data =
        some (if u64_from_le_bytes (data.take 8) ≠ 0 then
                Except.error ErrorCode.ConstraintZero
              else Except.ok ()))
    ∧ (data.length < 8 → zeroedCheck data = none) := by
  constructor
  · intro h
    simp [zeroedCheck, h]
  · intro h
    simp [zeroedCheck, Nat.not_le.mpr h]

/-- Witness for C9 at concrete buffers: a 9-byte buffer whose first
8 bytes encode the nonzero discriminator and a 7-byte buffer. -/
theorem zeroedCheck_totality_witness :
    (8 ≤ ([1, 0, 0, 0, 0, 0, 0, 0, 5] : List Nat).length ∧
      zeroedCheck [1, 0, 0, 0, 0, 0, 0, 0, 5] =
        some (Except.error ErrorCode.ConstraintZero))
    ∧ (([0, 0, 0, 0, 0, 0, 0] : List Nat).length < 8 ∧
      zeroedCheck [0, 0, 0, 0, 0, 0, 0] = none) := by
  refine ⟨⟨by decide, ?_⟩, ⟨by decide, ?_⟩⟩
  · have h := (zeroedCheck_totality [1, 0, 0, 0, 0, 0, 0, 0, 5]).1 (by decide)
    simpa using h
  · exact (zeroedCheck_totality [0, 0, 0, 0, 0, 0, 0]).2 (by decide)

/-- The rent sysvar's `is_exempt(balance, data_len)`, parameterized by the
minimum-balance function `minimum_balance`. -/
def is_exempt (minimum_balance : Nat → Nat) (balance data_len : Nat) : Bool :=
  minimum_balance data_len ≤ balance

/-- Whether `generate_constraint_rent_exempt` emits a check at all:
`Skip` expands to the empty token stream. -/
def rentExemptEmitsCheck : ConstraintRentExempt → Bool
  | ConstraintRentExempt.Skip => false
  | ConstraintRentExempt.Enforce => true

/-- Runtime semantics of the rent-exemption constraint: `Enforce` fails
with `ConstraintRentExempt` unless
`__anchor_rent.is_exempt(lamports, data_len)`; `Skip` emits no check, so
it never fails. -/
def rentExemptCheck (minimum_balance : Nat → Nat) (c : ConstraintRentExempt)
    (lamports data_len : Nat) : Except ErrorCode Unit :=
  match c with
  | ConstraintRentExempt.Skip => Except.ok ()
  | ConstraintRentExempt.Enforce =>
      if is_exempt minimum_balance lamports data_len then Except.ok ()
      else Except.error ErrorCode.ConstraintRentExempt

/-- C7: with mode `Enforce` and a fixed account data size, the emitted
check fails for every balance strictly below `minimum_balance(size)` and
succeeds for every balance at or above it (the size fed to the
minimum-balance computation is the account's data length); with mode
`Skip` no check is emitted and the constraint never fails. -/
theorem rentExempt_monotone (minimum_balance : Nat → Nat)
    (lamports data_len : Nat) :
    (lamports < minimum_balance data_len →
      rentExemptCheck minimum_balance ConstraintRentExempt.Enforce lamports
          data_len =
        Except.error ErrorCode.ConstraintRentExempt)
    ∧ (minimum_balance data_len ≤ lamports →
      rentExemptCheck minimum_balance ConstraintRentExempt.Enforce lamports
          data_len = Except.ok ())
    ∧ rentExemptCheck minimum_balance ConstraintRentExempt.Skip lamports
        data_len = Except.ok ()
    ∧ rentExemptEmitsCheck ConstraintRentExempt.Skip = false := by
  refine ⟨?_, ?_, rfl, rfl⟩
  · intro h
    simp [rentExemptCheck, is_exempt, Nat.not_le.mpr h]
  · intro h
    simp [rentExemptCheck, is_exempt, h]

/-- Witness for C7 with `minimum_balance = fun n => 2 * n`, size 16,
balances 31 (fails) and 32 (succeeds). -/
theorem rentExempt_monotone_witness :
    (31 < (fun n => 2 * n) 16 ∧
      rentExemptCheck (fun n => 2 * n) ConstraintRentExempt.Enforce 31 16 =
        Except.error ErrorCode.ConstraintRentExempt)
    ∧ ((fun n => 2 * n) 16 ≤ 32 ∧
      rentExemptCheck (fun n => 2 * n) ConstraintRentExempt.Enforce 32 16 =
        Except.ok ()) := by
  exact ⟨⟨by decide, (rentExempt_monotone (fun n => 2 * n) 31 16).1 (by decide)⟩,
    ⟨by decide, (rentExempt_monotone (fun n => 2 * n) 32 16).2.1 (by decide)⟩⟩

/-- Explicit wrapper for `AccountInfo` (`UncheckedAccount`). -/
structure UncheckedAccount where
  info : AccountInfo
  deriving DecidableEq, Repr

/-- `UncheckedAccount::try_accounts`: errors with `AccountNotEnoughKeys`
on an empty account list, else wraps the first account and advances the
slice by one. -/
def UncheckedAccount.try_accounts (accounts : List AccountInfo) :
    Except ErrorCode (UncheckedAccount × List AccountInfo) :=
  match accounts with
  | [] => Except.error ErrorCode.AccountNotEnoughKeys
  | account :: rest => Except.ok (⟨account⟩, rest)

/-- C10: `try_accounts` returns `AccountNotEnoughKeys` on the empty list,
and on any nonempty list succeeds with a wrapper of exactly the first
account while advancing the input slice by exactly one element — the
result does not depend on (never reads past) anything but the first
account. -/
theorem UncheckedAccount.try_accounts_spec :
    UncheckedAccount.try_accounts [] =
      Except.error ErrorCode.AccountNotEnoughKeys
    ∧ ∀ (account : AccountInfo) (rest : List AccountInfo),
        UncheckedAccount.try_accounts (account :: rest) =
          Except.ok (⟨account⟩, rest) := by
  exact ⟨rfl, fun _ _ => rfl⟩

/-- One system-program call issued by the generated creation code.
`signed` records whether it was submitted through `invoke_signed`. -/
inductive SysCall where
  | createAccount (payer target : Pubkey) (lamports space : Nat)
      (owner : Pubkey) (signed : Bool)
  | transfer (source target : Pubkey) (lamports : Nat) (signed : Bool)
  | allocate (target : Pubkey) (space : Nat) (signed : Bool)
  | assign (target : Pubkey) (owner : Pubkey) (signed : Bool)
  deriving DecidableEq, Repr

/-- Runtime semantics of the code emitted by `generate_create_account`:
the sequence of system-program calls issued for a target whose current
balance is `current_lamports`. If the balance is zero, one signed
`create_account` with `minimum_balance(space)` lamports; otherwise a
`transfer` of `minimum_balance(space).max(1).saturating_sub(current)`
from the payer when that is positive, then signed `allocate` and
`assign`. -/
def generate_create_account (minimum_balance : Nat → Nat)
    (payer target : Pubkey) (current_lamports space : Nat)
    (owner : Pubkey) : List SysCall :=
  if current_lamports = 0 then
    [SysCall.createAccount payer target (minimum_balance space) space owner
      true]
  else
    let required_lamports := max (minimum_balance space) 1 - current_lamports
    (if 0 < required_lamports then
      [SysCall.transfer payer target required_lamports false]
    else [])
    ++ [SysCall.allocate target space true, SysCall.assign target owner true]

/-- C3: on a pre-funded target (nonzero current balance) the account
creator issues a transfer from the payer of exactly the shortfall — and
only when the balance is strictly below `minimum_balance(space)` — then
an allocate of `space` bytes, then an assign of the owner tag, in that
order; in particular, for a target funded exactly 1 lamport below the
exemption threshold, exactly the three calls transfer, allocate, assign
are issued in that order. -/
theorem generate_create_account_nonzero (minimum_balance : Nat → Nat)
    (payer target : Pubkey) (current_lamports space : Nat) (owner : Pubkey)
    (hnz : current_lamports ≠ 0) :
    generate_create_account minimum_balance payer target current_lamports
        space owner =
      (if current_lamports < minimum_balance space then
        [SysCall.transfer payer target
          (minimum_balance space - current_lamports) false]
      else [])
      ++ [SysCall.allocate target space true,
          SysCall.assign target owner true]
    ∧ (current_lamports + 1 = minimum_balance space →
      generate_create_account minimum_balance payer target current_lamports
          space owner =
        [SysCall.transfer payer target 1 false,
         SysCall.allocate target space true,
         SysCall.assign target owner true]) := by
  have h1 : 1 ≤ current_lamports := Nat.one_le_iff_ne_zero.mpr hnz
  have hmain :
      generate_create_account minimum_balance payer target current_lamports
          space owner =
        (if current_lamports < minimum_balance space then
          [SysCall.transfer payer target
            (minimum_balance space - current_lamports) false]
        else [])
        ++ [SysCall.allocate target space true,
            SysCall.assign target owner true] := by
    rw [generate_create_account, if_neg hnz]
    rcases Nat.lt_or_ge current_lamports (minimum_balance space) with hlt | hge
    · have hmax : max (minimum_balance space) 1 = minimum_balance space :=
        Nat.max_eq_left (le_trans h1 (Nat.le_of_lt hlt))
      have hpos : 0 < minimum_balance space - current_lamports :=
        Nat.sub_pos_of_lt hlt
      simp only [hmax, if_pos hpos, if_pos hlt]
    · have hzero : max (minimum_balance space) 1 - current_lamports = 0 := by
        have : max (minimum_balance space) 1 ≤ current_lamports :=
          Nat.max_le.mpr ⟨hge, h1⟩
        exact Nat.sub_eq_zero_of_le this
      simp only [hzero, Nat.lt_irrefl, if_false, if_neg (Nat.not_lt.mpr hge)]
  refine ⟨hmain, ?_⟩
  intro hone
  have hlt : current_lamports < minimum_balance space := by omega
  have hsub : minimum_balance space - current_lamports = 1 := by omega
  rw [hmain, if_pos hlt, hsub]
  rfl

/-- Witness for C3 with `minimum_balance = fun n => 3 * n`, space 16,
current balance 47 = minBalance(16) - 1: three calls transfer 1,
allocate 16, assign. -/
theorem generate_create_account_nonzero_witness :
    (47 : Nat) ≠ 0
    ∧ generate_create_account (fun n => 3 * n) 10 20 47 16 30 =
      [SysCall.transfer 10 20 1 false, SysCall.allocate 20 16 true,
       SysCall.assign 20 30 true] := by
  refine ⟨by decide, ?_⟩
  exact (generate_create_account_nonzero (fun n => 3 * n) 10 20 47 16 30
    (by decide)).2 (by decide)

/-- C4: on a target with zero current balance the account creator issues
exactly one signed create-account call with balance
`minimum_balance(space)`, size `space`, and the given owner — and no
transfer, allocate, or assign calls. -/
theorem generate_create_account_zero (minimum_balance : Nat → Nat)
    (payer target : Pubkey) (space : Nat) (owner : Pubkey) :
    generate_create_account minimum_balance payer target 0 space owner =
      [SysCall.createAccount payer target (minimum_balance space) space
        owner true] := by
  rfl

/-- The external address-derivation collaborator:
`Pubkey::create_program_address(seeds, program_id)` returns `none` when
the resulting address is not off-curve. -/
structure Chain where
  create_program_address : List Seed → Pubkey → Option Pubkey

/-- Bump search of `Pubkey::find_program_address`: at fuel `n + 1` try
bump `n` (so starting fuel 256 tries 255, 254, ..., 0), appending the
single-byte bump seed. -/
def find_program_address_aux (ch : Chain) (seeds : List Seed)
    (program_id : Pubkey) : Nat → Option (Pubkey × Nat)
  | 0 => none
  | n + 1 =>
    match ch.create_program_address (seeds ++ [[n]]) program_id with
    | some addr => some (addr, n)
    | none => find_program_address_aux ch seeds program_id n

/-- `Pubkey::find_program_address(seeds, program_id)`: the first bump,
counting down from 255, for which `create_program_address` succeeds,
together with the derived address; `none` models the panic when no bump
yields an off-curve address. -/
def find_program_address (ch : Chain) (seeds : List Seed)
    (program_id : Pubkey) : Option (Pubkey × Nat) :=
  find_program_address_aux ch seeds program_id 256

theorem find_program_address_aux_create (ch : Chain) (seeds : List Seed)
    (program_id : Pubkey) :
    ∀ fuel addr bump,
      find_program_address_aux ch seeds program_id fuel = some (addr, bump) →
      ch.create_program_address (seeds ++ [[bump]]) program_id = some addr := by
  intro fuel
  induction fuel with
  | zero => intro addr bump h; simp [find_program_address_aux] at h
  | succ n ih =>
    intro addr bump h
    rw [find_program_address_aux] at h
    cases hc : ch.create_program_address (seeds ++ [[n]]) program_id with
    | some a =>
      rw [hc] at h
      obtain ⟨rfl, rfl⟩ : a = addr ∧ n = bump := by
        simpa using h
      exact hc
    | none =>
      rw [hc] at h
      exact ih addr bump h

/-- The canonical bump returned by `find_program_address` re-derives the
returned address through `create_program_address`. -/
theorem find_program_address_create (ch : Chain) (seeds : List Seed)
    (program_id : Pubkey) (addr : Pubkey) (bump : Nat)
    (h : find_program_address ch seeds program_id = some (addr, bump)) :
    ch.create_program_address (seeds ++ [[bump]]) program_id = some addr :=
  find_program_address_aux_create ch seeds program_id 256 addr bump h

/-- The non-init arm of the emitted seeds check:
`Pubkey::create_program_address(seeds_with_bump, program_id)` with its
failure mapped to `ConstraintSeeds`, then a key-equality check. -/
def createCheck (ch : Chain) (seeds_with_bump : List Seed)
    (program_id key : Pubkey) : Except ErrorCode Unit :=
  match ch.create_program_address seeds_with_bump program_id with
  | none => Except.error ErrorCode.ConstraintSeeds
  | some program_signer =>
    if key = program_signer then Except.ok ()
    else Except.error ErrorCode.ConstraintSeeds

/-- Runtime semantics of the check emitted by
`generate_constraint_seeds`. When the constraint carries `init` and an
explicit bump, the generated code recomputes the canonical
`find_program_address` pair and fails unless the key equals the canonical
address and the given bump equals the canonical bump. Otherwise the seed
list is extended with the explicit bump if given, else with the canonical
bump found by `find_program_address` (whose panic on failure is modelled
by `none`), and a create-style derivation plus key comparison is
performed. -/
def seedsCheck (ch : Chain) (c : ConstraintSeedsGroup)
    (program_id key : Pubkey) : Option (Except ErrorCode Unit) :=
  match c.bump, c.is_init with
  | some b, true =>
    match find_program_address ch c.seeds program_id with
    | none => none
    | some (program_signer, bump) =>
      some (if key = program_signer then
              if bump = b then Except.ok ()
              else Except.error ErrorCode.ConstraintSeeds
            else Except.error ErrorCode.ConstraintSeeds)
  | some b, false =>
    some (createCheck ch (c.seeds ++ [[b]]) program_id key)
  | none, _ =>
    match find_program_address ch c.seeds program_id with
    | none => none
    | some (_, bump) =>
      some (createCheck ch (c.seeds ++ [[bump]]) program_id key)

/-- C2: (i) with no explicit bump, the canonical bump from
`find_program_address` is used and the check succeeds exactly when the
account's key equals the canonically derived address; (ii) with an
explicit bump and no `init`, a create-style derivation with exactly that
bump is performed, failing if the address is not off-curve or the key
differs from it; (iii) with an explicit bump together with `init`, the
check fails whenever the given bump differs from the canonical bump. -/
theorem generate_constraint_seeds_spec (ch : Chain)
    (c : ConstraintSeedsGroup) (program_id key : Pubkey) :
    (c.bump = none →
      ∀ addr bump,
        find_program_address ch c.seeds program_id = some (addr, bump) →
        seedsCheck ch c program_id key =
          some (if key = addr then Except.ok ()
                else Except.error ErrorCode.ConstraintSeeds))
    ∧ (∀ b, c.bump = some b → c.is_init = false →
        seedsCheck ch c program_id key =
          some (match ch.create_program_address (c.seeds ++ [[b]])
                  program_id with
                | none => Except.error ErrorCode.ConstraintSeeds
                | some addr =>
                  if key = addr then Except.ok ()
                  else Except.error ErrorCode.ConstraintSeeds))
    ∧ (∀ b addr bump, c.bump = some b → c.is_init = true →
        find_program_address ch c.seeds program_id = some (addr, bump) →
        b ≠ bump →
        seedsCheck ch c program_id key =
          some (Except.error ErrorCode.ConstraintSeeds)) := by
  obtain ⟨is_init, seeds, bumpSlot⟩ := c
  refine ⟨?_, ?_, ?_⟩
  · rintro hb addr bump hfind
    cases bumpSlot with
    | some b => simp at hb
    | none =>
      have hcreate := find_program_address_create ch seeds program_id addr
        bump hfind
      cases is_init <;>
        simp only [seedsCheck, hfind, createCheck, hcreate]
  · rintro b hb hinit
    cases bumpSlot with
    | none => simp at hb
    | some b0 =>
      obtain rfl : b0 = b := by simpa using hb
      subst hinit
      simp only [seedsCheck, createCheck]
  · rintro b addr bump hb hinit hfind hne
    cases bumpSlot with
    | none => simp at hb
    | some b0 =>
      obtain rfl : b0 = b := by simpa using hb
      subst hinit
      simp only [seedsCheck, hfind]
      by_cases hk : key = addr
      · simp [hk, Ne.symm hne]
      · simp [hk]

/-- A concrete derivation collaborator used by the witness below. -/
def chainW : Chain :=
  ⟨fun seeds program_id => some (program_id + seeds.length)⟩

/-- Witness for C2: under `chainW`, seeds `[[1]]`, program id 0 and no
explicit bump, the canonical derivation yields address 2 with bump 255,
and the check accepts key 2. -/
theorem generate_constraint_seeds_spec_witness :
    (some 255 : Option Nat) ≠ none
    ∧ seedsCheck chainW ⟨false, [[1]], none⟩ 0 2 = some (Except.ok ())
    ∧ seedsCheck chainW ⟨false, [[1]], some 7⟩ 0 2 = some (Except.ok ())
    ∧ seedsCheck chainW ⟨true, [[1]], some 7⟩ 0 2 =
        some (Except.error ErrorCode.ConstraintSeeds) := by
  refine ⟨by decide, ?_, ?_, ?_⟩
  · have h := (generate_constraint_seeds_spec chainW ⟨false, [[1]], none⟩
      0 2).1 rfl 2 255 (by decide)
    simpa using h
  · have h := (generate_constraint_seeds_spec chainW ⟨false, [[1]], some 7⟩
      0 2).2.1 7 rfl rfl
    simpa [chainW] using h
  · exact (generate_constraint_seeds_spec chainW ⟨true, [[1]], some 7⟩
      0 2).2.2 7 2 255 rfl rfl (by decide) (by decide)

/-- The failure value of one emitted check: a caller-supplied custom
error expression, or a default `ErrorCode` tagged with the constraint
kind. -/
inductive EmittedError where
  | custom (e : Nat)
  | default (tag : ErrorCode)
  deriving DecidableEq, Repr

/-- `generate_custom_error`: the custom error expression when present,
else the default error with the given tag. -/
def generate_custom_error (custom_error : Option Nat) (tag : ErrorCode) :
    EmittedError :=
  match custom_error with
  | some err => EmittedError.custom err
  | none => EmittedError.default tag

/-- The optional custom error expression carried by a constraint: only
the address, mut, has_one, signer, raw and owner emitters call
`generate_custom_error`; all other emitters hardcode a default error. -/
def customErrorOf : Constraint → Option Nat
  | Constraint.Mut c => c.error
  | Constraint.HasOne c => c.error
  | Constraint.Signer c => c.error
  | Constraint.Raw c => c.error
  | Constraint.Owner c => c.error
  | Constraint.Address c => c.error
  | _ => none

/-- The default error tag each emitter uses for a constraint kind. -/
def defaultTagOf : Constraint → ErrorCode
  | Constraint.Init _ => ErrorCode.ConstraintZero
  | Constraint.Zeroed _ => ErrorCode.ConstraintZero
  | Constraint.Mut _ => ErrorCode.ConstraintMut
  | Constraint.HasOne _ => ErrorCode.ConstraintHasOne
  | Constraint.Signer _ => ErrorCode.ConstraintSigner
  | Constraint.Literal _ => ErrorCode.Deprecated
  | Constraint.Raw _ => ErrorCode.ConstraintRaw
  | Constraint.Owner _ => ErrorCode.ConstraintOwner
  | Constraint.RentExempt _ => ErrorCode.ConstraintRentExempt
  | Constraint.Seeds _ => ErrorCode.ConstraintSeeds
  | Constraint.Executable _ => ErrorCode.ConstraintExecutable
  | Constraint.State _ => ErrorCode.ConstraintState
  | Constraint.Close _ => ErrorCode.ConstraintClose
  | Constraint.Address _ => ErrorCode.ConstraintAddress
  | Constraint.AssociatedToken _ => ErrorCode.ConstraintAssociated
  | Constraint.Dup _ => ErrorCode.ConstraintNoDup

/-- The failure values of the conditional `if ... \x7b return Err(e) \x7d`
checks emitted by `generate_constraint` for one constraint, in emission
order. `Init` expands to creation code with no conditional check, `Dup`
expands to the empty stream, `RentExempt Skip` emits no check, the
legacy `State` emitter emits two checks (address and owner), and the
seeds emitter emits two checks in its init-with-explicit-bump arm (key
equality and bump equality). -/
def emittedChecks : Constraint → List EmittedError
  | Constraint.Init _ => []
  | Constraint.Zeroed _ => [EmittedError.default ErrorCode.ConstraintZero]
  | Constraint.Mut c => [generate_custom_error c.error ErrorCode.ConstraintMut]
  | Constraint.HasOne c =>
      [generate_custom_error c.error ErrorCode.ConstraintHasOne]
  | Constraint.Signer c =>
      [generate_custom_error c.error ErrorCode.ConstraintSigner]
  | Constraint.Literal _ => [EmittedError.default ErrorCode.Deprecated]
  | Constraint.Raw c => [generate_custom_error c.error ErrorCode.ConstraintRaw]
  | Constraint.Owner c =>
      [generate_custom_error c.error ErrorCode.ConstraintOwner]
  | Constraint.RentExempt ConstraintRentExempt.Skip => []
  | Constraint.RentExempt ConstraintRentExempt.Enforce =>
      [EmittedError.default ErrorCode.ConstraintRentExempt]
  | Constraint.Seeds c =>
      if c.is_init && c.bump.isSome then
        [EmittedError.default ErrorCode.ConstraintSeeds,
         EmittedError.default ErrorCode.ConstraintSeeds]
      else [EmittedError.default ErrorCode.ConstraintSeeds]
  | Constraint.Executable _ =>
      [EmittedError.default ErrorCode.ConstraintExecutable]
  | Constraint.State _ =>
      [EmittedError.default ErrorCode.ConstraintState,
       EmittedError.default ErrorCode.ConstraintState]
  | Constraint.Close _ => [EmittedError.default ErrorCode.ConstraintClose]
  | Constraint.Address c =>
      [generate_custom_error c.error ErrorCode.ConstraintAddress]
  | Constraint.AssociatedToken _ =>
      [EmittedError.default ErrorCode.ConstraintAssociated]
  | Constraint.Dup _ => []

/-- Counterexample to C6 as stated: the `Dup` variant does not produce a
single conditional check — its emitter expands to the empty token
stream, so it produces no check at all. -/
theorem emittedChecks_dup_not_single :
    ¬ (emittedChecks (Constraint.Dup ⟨"other"⟩)).length = 1 := by
  decide

/-- C6 (amended): every conditional check a constraint's emitter
produces fails with the caller-supplied custom error when the constraint
carries one and otherwise with a default error tagged with that
constraint kind, and a supplied custom error fully replaces the default;
however, the number of emitted checks is not one for every variant:
`Init`, `Dup` and `RentExempt Skip` emit none, and `State` and
init-with-explicit-bump `Seeds` emit two. -/
theorem emittedChecks_custom_or_default (c : Constraint) :
    (∀ e, e ∈ emittedChecks c →
      e = generate_custom_error (customErrorOf c) (defaultTagOf c))
    ∧ (∀ err, generate_custom_error (some err) (defaultTagOf c) =
        EmittedError.custom err) := by
  refine ⟨?_, fun _ => rfl⟩
  intro e he
  cases c with
  | RentExempt c => cases c <;> simp_all [emittedChecks, customErrorOf,
      defaultTagOf, generate_custom_error]
  | Seeds c =>
    rw [emittedChecks] at he
    by_cases h : c.is_init && c.bump.isSome <;>
      simp_all [customErrorOf, defaultTagOf, generate_custom_error]
  | _ => simp_all [emittedChecks, customErrorOf, defaultTagOf,
      generate_custom_error]

/-- Witness for C6 (amended): the mut constraint with custom error 42
emits exactly the custom failure value. -/
theorem emittedChecks_custom_or_default_witness :
    EmittedError.custom 42 ∈ emittedChecks (Constraint.Mut ⟨some 42⟩)
    ∧ EmittedError.custom 42 =
        generate_custom_error (customErrorOf (Constraint.Mut ⟨some 42⟩))
          (defaultTagOf (Constraint.Mut ⟨some 42⟩)) := by
  refine ⟨by decide, ?_⟩
  exact (emittedChecks_custom_or_default (Constraint.Mut ⟨some 42⟩)).1
    (EmittedError.custom 42) (by decide)

/-- Environment of the init code generator's runtime: ids of the
invoking program, the token program and the system program, the fixed
token-account and mint layout sizes (`TokenAccount::LEN`, `Mint::LEN`),
and the rent minimum-balance function. -/
structure InitEnv where
  program_id : Pubkey
  token_program_id : Pubkey
  system_program_id : Pubkey
  token_account_len : Nat
  mint_len : Nat
  minimum_balance : Nat → Nat

/-- One call issued by the generated init code: a system-program call
from the shared account creator, or a kind-specific setup invocation. -/
inductive CpiCall where
  | sys (c : SysCall)
  | initTokenAccount (account mint authority : Pubkey)
  | initMint (mint : Pubkey) (decimals : Nat) (authority : Pubkey)
      (freeze : Option Pubkey)
  | ataCreate (payer account authority mint : Pubkey)
  deriving DecidableEq, Repr

/-- The owner tag the target account ends up with after a run of the
initializer for each kind: the given owner (defaulting to the invoking
program) for `program`, and the token program for the three token
kinds (the associated-token program creates the account owned by the
token program). -/
def assignedOwner (env : InitEnv) : InitKind → Pubkey
  | InitKind.program owner => owner.getD env.program_id
  | InitKind.token _ _ => env.token_program_id
  | InitKind.mint _ _ _ => env.token_program_id
  | InitKind.associatedToken _ _ => env.token_program_id

/-- The creation and setup calls inside the guarded block that
`generate_init` emits for each `InitKind` (the body of
`if !if_needed || owner == system_program::ID`): the shared account
creator followed by the kind-specific setup invocation. `ρ` resolves
account identifiers to keys and `default_len` is the serialized size of
the account type's default value (used when no explicit space is
given). -/
def initGuardedCalls (env : InitEnv) (ρ : Ident → Pubkey) (kind : InitKind)
    (target : AccountInfo) (payer : Pubkey) (space : Option Nat)
    (default_len : Nat) : List CpiCall :=
  match kind with
  | InitKind.token owner mint =>
    (generate_create_account env.minimum_balance payer target.key
      target.lamports env.token_account_len env.token_program_id).map
        CpiCall.sys
    ++ [CpiCall.initTokenAccount target.key (ρ mint) (ρ owner)]
  | InitKind.associatedToken owner mint =>
    [CpiCall.ataCreate payer target.key (ρ owner) (ρ mint)]
  | InitKind.mint owner decimals freeze_authority =>
    (generate_create_account env.minimum_balance payer target.key
      target.lamports env.mint_len env.token_program_id).map CpiCall.sys
    ++ [CpiCall.initMint target.key decimals (ρ owner)
        (freeze_authority.map ρ)]
  | InitKind.program owner =>
    (generate_create_account env.minimum_balance payer target.key
      target.lamports (space.getD (8 + default_len))
      (owner.getD env.program_id)).map CpiCall.sys

/-- Runtime semantics of one run of the code emitted by `generate_init`:
if `!if_needed || target.owner == system_program::ID`, the guarded
creation/setup calls are issued and the target ends owned by the kind's
owner tag (the effect the host environment applies for the issued
create/assign/setup calls, per the account creator's contract);
otherwise nothing is issued and the account is untouched. -/
def generate_init_run (env : InitEnv) (ρ : Ident → Pubkey)
    (if_needed : Bool) (kind : InitKind) (target : AccountInfo)
    (payer : Pubkey) (space : Option Nat) (default_len : Nat) :
    List CpiCall × AccountInfo :=
  if !if_needed || target.owner == env.system_program_id then
    (initGuardedCalls env ρ kind target payer space default_len,
      ⟨target.key, assignedOwner env kind, target.lamports, target.data,
        target.is_signer, target.is_writable, target.executable⟩)
  else
    ([], target)

/-- C5: with `if_needed` set, for every initialization kind, when the
target's current owner tag is not the default system owner the
initializer performs zero creation and zero setup calls (and so produces
no error); hence — the owner a run assigns never being the system
owner — running the `init_if_needed` initializer twice with no external
mutation in between performs no creation/setup calls on the second
run. -/
theorem generate_init_if_needed_idempotent (env : InitEnv)
    (ρ : Ident → Pubkey) (kind : InitKind) (target : AccountInfo)
    (payer : Pubkey) (space : Option Nat) (default_len : Nat) :
    (target.owner ≠ env.system_program_id →
      generate_init_run env ρ true kind target payer space default_len =
        ([], target))
    ∧ (assignedOwner env kind ≠ env.system_program_id →
      (generate_init_run env ρ true kind
        (generate_init_run env ρ true kind target payer space
          default_len).2 payer space default_len).1 = []) := by
  constructor
  · intro hne
    simp [generate_init_run, hne]
  · intro hko
    by_cases hso : target.owner = env.system_program_id
    · simp [generate_init_run, hso, hko]
    · simp [generate_init_run, hso]

/-- Witness for C5: a concrete environment, a `program` kind and a
target already owned by program 3 ≠ system owner 0: the first run is a
no-op, and a second run after any first run issues no calls. -/
theorem generate_init_if_needed_idempotent_witness :
    ((3 : Pubkey) ≠ 0
      ∧ generate_init_run ⟨7, 5, 0, 165, 82, fun n => 2 * n⟩ (fun _ => 9)
          true (InitKind.program none) ⟨1, 3, 4, [], false, false, false⟩
          6 none 8 =
        ([], ⟨1, 3, 4, [], false, false, false⟩))
    ∧ ((7 : Pubkey) ≠ 0
      ∧ (generate_init_run ⟨7, 5, 0, 165, 82, fun n => 2 * n⟩ (fun _ => 9)
          true (InitKind.program none)
          (generate_init_run ⟨7, 5, 0, 165, 82, fun n => 2 * n⟩
            (fun _ => 9) true (InitKind.program none)
            ⟨1, 0, 4, [], false, false, false⟩ 6 none 8).2
          6 none 8).1 = []) := by
  constructor
  · exact ⟨by decide,
      (generate_init_if_needed_idempotent ⟨7, 5, 0, 165, 82, fun n => 2 * n⟩
        (fun _ => 9) (InitKind.program none)
        ⟨1, 3, 4, [], false, false, false⟩ 6 none 8).1 (by decide)⟩
  · exact ⟨by decide,
      (generate_init_if_needed_idempotent ⟨7, 5, 0, 165, 82, fun n => 2 * n⟩
        (fun _ => 9) (InitKind.program none)
        ⟨1, 0, 4, [], false, false, false⟩ 6 none 8).2 (by decide)⟩

/-- The data of one non-composite field that the opt-in
duplicate-account pass reads: its identifier, whether its constraints
mark it mutable, its optional declared `dup` target, and its resolved
runtime key. -/
structure FieldDecl where
  ident : Ident
  mutable : Bool
  dup : Option Ident
  key : Pubkey
  deriving DecidableEq, Repr

/-- `handle_field` for a pair of plain (non-composite) fields: no check
when neither field is mutable; when the later field declares a `dup`
target, the check is suppressed if the earlier field declares the same
target, or — when the earlier field declares none — if the target names
the earlier field; otherwise a key-equality check on the pair is
emitted. -/
def handle_field (previous_field my_field : FieldDecl) :
    List (FieldDecl × FieldDecl) :=
  if !my_field.mutable && !previous_field.mutable then []
  else
    match my_field.dup with
    | some target =>
      match previous_field.dup with
      | some previous_target =>
        if target ≠ previous_target then [(previous_field, my_field)]
        else []
      | none =>
        if target ≠ previous_field.ident then [(previous_field, my_field)]
        else []
    | none => [(previous_field, my_field)]

/-- The accumulator loop of `generate_constraints_no_dup`: walk the
field list keeping the already-seen fields, pairing each field with
every earlier one. -/
def generate_constraints_no_dup_aux (previous_fields : List FieldDecl) :
    List FieldDecl → List (FieldDecl × FieldDecl)
  | [] => []
  | field :: rest =>
    (previous_fields.flatMap fun previous_field =>
      handle_field previous_field field)
    ++ generate_constraints_no_dup_aux (previous_fields ++ [field]) rest

/-- `generate_constraints_no_dup` (feature `nodup`): the ordered pairs
of fields for which a duplicate-key check is emitted. -/
def generate_constraints_no_dup (fields : List FieldDecl) :
    List (FieldDecl × FieldDecl) :=
  generate_constraints_no_dup_aux [] fields

/-- Whether `handle_field` emits a check for the (earlier, later) pair. -/
def shouldCheck (previous_field my_field : FieldDecl) : Bool :=
  (my_field.mutable || previous_field.mutable) &&
    (match my_field.dup with
     | some target =>
       match previous_field.dup with
       | some previous_target => target ≠ previous_target
       | none => target ≠ previous_field.ident
     | none => true)

theorem handle_field_eq (previous_field my_field : FieldDecl) :
    handle_field previous_field my_field =
      if shouldCheck previous_field my_field then
        [(previous_field, my_field)]
      else [] := by
  unfold handle_field shouldCheck
  cases my_field.mutable <;> cases previous_field.mutable <;>
    cases my_field.dup <;> cases previous_field.dup <;> simp

/-- The runtime result of one emitted pair check
(`generate_constraint_no_dup`): fails with `ConstraintNoDup` exactly
when the two fields' resolved keys are equal. -/
def noDupCheckResult (pr : FieldDecl × FieldDecl) : Except ErrorCode Unit :=
  if pr.1.key = pr.2.key then Except.error ErrorCode.ConstraintNoDup
  else Except.ok ()

/-- Whether any emitted duplicate check fails on the given field list. -/
def noDupAnyFails (fields : List FieldDecl) : Bool :=
  (generate_constraints_no_dup fields).any fun pr => pr.1.key == pr.2.key

theorem shouldCheck_of_mem_no_dup_aux :
    ∀ (rest previous_fields : List FieldDecl) (pr : FieldDecl × FieldDecl),
      pr ∈ generate_constraints_no_dup_aux previous_fields rest →
      shouldCheck pr.1 pr.2 = true := by
  intro rest
  induction rest with
  | nil => intro prev pr h; simp [generate_constraints_no_dup_aux] at h
  | cons f rest ih =>
    intro prev pr h
    rw [generate_constraints_no_dup_aux] at h
    rcases List.mem_append.mp h with h | h
    · obtain ⟨p, _, hmem⟩ := List.mem_flatMap.mp h
      rw [handle_field_eq] at hmem
      by_cases hsc : shouldCheck p f = true
      · rw [if_pos hsc] at hmem
        obtain rfl : pr = (p, f) := by simpa using hmem
        exact hsc
      · rw [if_neg hsc] at hmem
        simp at hmem
    · exact ih (prev ++ [f]) pr h

theorem mem_no_dup_aux_of_mem_prev :
    ∀ (rest previous_fields : List FieldDecl) (p m : FieldDecl),
      shouldCheck p m = true → p ∈ previous_fields → m ∈ rest →
      (p, m) ∈ generate_constraints_no_dup_aux previous_fields rest := by
  intro rest
  induction rest with
  | nil => intro prev p m _ _ hm; simp at hm
  | cons f rest ih =>
    intro prev p m hsc hp hm
    rw [generate_constraints_no_dup_aux]
    rcases List.mem_cons.mp hm with rfl | hm
    · refine List.mem_append_left _ (List.mem_flatMap.mpr ⟨p, hp, ?_⟩)
      rw [handle_field_eq, if_pos hsc]
      exact List.mem_singleton.mpr rfl
    · exact List.mem_append_right _
        (ih (prev ++ [f]) p m hsc (List.mem_append_left _ hp) hm)

theorem mem_no_dup_aux_of_sublist :
    ∀ (rest previous_fields : List FieldDecl) (p m : FieldDecl),
      List.Sublist [p, m] rest → shouldCheck p m = true →
      (p, m) ∈ generate_constraints_no_dup_aux previous_fields rest := by
  intro rest
  induction rest with
  | nil =>
    intro prev p m h _
    simp [List.sublist_nil] at h
  | cons f rest ih =>
    intro prev p m h hsc
    cases h with
    | cons _ h => exact List.mem_append_right _ (ih (prev ++ [f]) p m h hsc)
    | cons₂ _ h =>
      rw [generate_constraints_no_dup_aux]
      exact List.mem_append_right _
        (mem_no_dup_aux_of_mem_prev rest (prev ++ [f]) f m hsc
          (List.mem_append_right _ (List.mem_singleton.mpr rfl))
          (List.singleton_sublist.mp h))

/-- Counterexample to C8 as stated: fields `a` (mutable, `dup = z`,
key 5) and `b` (mutable, `dup = a`, key 5). The later field `b`'s
declared dup target names the earlier field `a`, so the claim exempts
the pair; but since `a` itself declares a dup constraint with a
different target, the pass compares the two targets, finds them
different, emits the pair check, and it fails on the equal keys. -/
theorem generate_constraints_no_dup_counterexample :
    (FieldDecl.mk "b" true (some "a") 5).dup =
      some (FieldDecl.mk "a" true (some "z") 5).ident
    ∧ (FieldDecl.mk "a" true (some "z") 5).key =
      (FieldDecl.mk "b" true (some "a") 5).key
    ∧ noDupAnyFails
        [FieldDecl.mk "a" true (some "z") 5,
         FieldDecl.mk "b" true (some "a") 5] = true := by
  exact ⟨rfl, rfl, by decide⟩

/-- C8 (amended): when the duplicate-account pass is enabled, for every
pair of distinct non-composite fields (the earlier `p`, the later `m`),
a key-equality check on the pair is emitted iff at least one of the two
is mutable and the pair is not exempted, where the pair is exempt iff
the later field declares a dup target and either the earlier field
declares the same target, or the earlier field declares no dup target
and the later's target names the earlier field; an emitted check fails
with the duplicate-account error exactly when the two resolved keys are
equal, and pairs where neither field is mutable produce no check. -/
theorem generate_constraints_no_dup_spec (fields : List FieldDecl)
    (p m : FieldDecl) (h : List.Sublist [p, m] fields) :
    ((p, m) ∈ generate_constraints_no_dup fields ↔
      shouldCheck p m = true)
    ∧ (p.key = m.key →
      noDupCheckResult (p, m) = Except.error ErrorCode.ConstraintNoDup)
    ∧ (p.mutable = false → m.mutable = false →
      (p, m) ∉ generate_constraints_no_dup fields) := by
  refine ⟨⟨fun hmem => shouldCheck_of_mem_no_dup_aux fields [] (p, m) hmem,
    fun hsc => mem_no_dup_aux_of_sublist fields [] p m h hsc⟩, ?_, ?_⟩
  · intro hk
    simp [noDupCheckResult, hk]
  · intro hp hm hmem
    have hsc := shouldCheck_of_mem_no_dup_aux fields [] (p, m) hmem
    simp [shouldCheck, hp, hm] at hsc

/-- Witness for C8 (amended) on the concrete list `[x, y]`, both
mutable with no dup targets and equal keys: the pair check is emitted
and fails with `ConstraintNoDup`. -/
theorem generate_constraints_no_dup_spec_witness :
    List.Sublist
      [FieldDecl.mk "x" true none 1, FieldDecl.mk "y" true none 1]
      [FieldDecl.mk "x" true none 1, FieldDecl.mk "y" true none 1]
    ∧ (FieldDecl.mk "x" true none 1, FieldDecl.mk "y" true none 1) ∈
        generate_constraints_no_dup
          [FieldDecl.mk "x" true none 1, FieldDecl.mk "y" true none 1]
    ∧ noDupCheckResult
        (FieldDecl.mk "x" true none 1, FieldDecl.mk "y" true none 1) =
      Except.error ErrorCode.ConstraintNoDup := by
  refine ⟨List.Sublist.refl _, ?_, ?_⟩
  · exact (generate_constraints_no_dup_spec
      [FieldDecl.mk "x" true none 1, FieldDecl.mk "y" true none 1]
      (FieldDecl.mk "x" true none 1) (FieldDecl.mk "y" true none 1)
      (List.Sublist.refl _)).1.mpr (by decide)
  · exact (generate_constraints_no_dup_spec
      [FieldDecl.mk "x" true none 1, FieldDecl.mk "y" true none 1]
      (FieldDecl.mk "x" true none 1) (FieldDecl.mk "y" true none 1)
      (List.Sublist.refl _)).2.1 rfl
